import Mathlib

/-!
Verification of the rule engine and rule checks of the CodeReview-C static
analyser.  The Python sources under `src/core` and `src/rules` are shallowly
embedded: syntax-tree nodes become an inductive tree, the tree-query layer
(`find_nodes_by_type`, `get_node_text`, parent navigation) becomes structural
recursion over that tree, the registry (`RuleEngine`) becomes explicit state
passing over a `Engine` record, and fallible steps (a rule raising, an invalid
severity string) are modelled with `Except`/success flags.

Python string/number primitives (`split`, `in`, `lower`, `strip`, `int(...)`,
format padding) are re-implemented below by structural recursion so that every
definition evaluates inside the kernel; all source texts considered here are
ASCII, where Python's character indexing coincides with tree-sitter's byte
offsets.
-/

set_option maxRecDepth 20000

/-- Whitespace test used by the models of Python `str.strip` / `int`. -/
def isSpaceChar (c : Char) : Bool :=
  c == ' ' || c == '\t' || c == '\n' || c == '\r'

/-- Model of Python `content.split('\n')`. -/
def splitLinesAux : List Char → List Char → List String
  | [], acc => [String.mk acc.reverse]
  | c :: cs, acc =>
    if c == '\n' then String.mk acc.reverse :: splitLinesAux cs []
    else splitLinesAux cs (c :: acc)

/-- Model of Python `content.split('\n')`. -/
def splitLines (s : String) : List String :=
  splitLinesAux s.data []

/-- Model of Python `str.lower` (ASCII). -/
def strToLower (s : String) : String :=
  String.mk (s.data.map Char.toLower)

/-- Model of Python `str.strip()`. -/
def trimChars (s : String) : String :=
  String.mk (((s.data.dropWhile isSpaceChar).reverse.dropWhile isSpaceChar).reverse)

/-- Does the list start with the given pattern? -/
def listStartsWith : List Char → List Char → Bool
  | [], _ => true
  | _ :: _, [] => false
  | p :: ps, c :: cs => p == c && listStartsWith ps cs

/-- Is `pat` a contiguous sublist? -/
def listContainsSub (pat : List Char) : List Char → Bool
  | [] => listStartsWith pat []
  | c :: cs => listStartsWith pat (c :: cs) || listContainsSub pat cs

/-- Model of Python `pat in s` on strings (substring containment). -/
def strContains (s pat : String) : Bool :=
  listContainsSub pat.data s.data

/-- Digit-sequence parser backing the model of Python `int(...)`. -/
def parseDigits (ds : List Char) : Option Nat :=
  if ds.isEmpty || !ds.all Char.isDigit then none
  else some (ds.foldl (fun acc c => acc * 10 + (c.toNat - 48)) 0)

/-- Model of Python `int(text)` on decimal literals with optional sign and
surrounding whitespace (`None` when Python would raise `ValueError`). -/
def parseInt? (s : String) : Option Int :=
  let t := ((s.data.dropWhile isSpaceChar).reverse.dropWhile isSpaceChar).reverse
  match t with
  | '-' :: ds => (parseDigits ds).map (fun n => -(n : Int))
  | '+' :: ds => (parseDigits ds).map (fun n => (n : Int))
  | ds => (parseDigits ds).map (fun n => (n : Int))

/-- Model of Python `f"{n:4d}"`-style right alignment. -/
def padNum (n w : Nat) : String :=
  let s := toString n
  String.mk (List.replicate (w - s.length) ' ') ++ s

/-- Model of Python `sep.join(parts)`. -/
def joinWith (sep : String) : List String → String
  | [] => ""
  | [x] => x
  | x :: y :: xs => x ++ sep ++ joinWith sep (y :: xs)

/-- The list `rangeFrom s n = [s, s+1, ..., s+n-1]`, the model of Python
`range(s, s+n)`. -/
def rangeFrom : Nat → Nat → List Nat
  | _, 0 => []
  | s, n + 1 => s :: rangeFrom (s + 1) n

/-- The list `enumFrom i l`, the model of Python `enumerate`. -/
def enumFrom {α : Type} : Nat → List α → List (Nat × α)
  | _, [] => []
  | i, a :: l => (i, a) :: enumFrom (i + 1) l

/-- Association-list lookup, the model of a Python `dict` read (the dicts
built by the engine have pairwise distinct keys). -/
def dictGet {α : Type} : List (String × α) → String → Option α
  | [], _ => none
  | (k, v) :: rest, key => if k == key then some v else dictGet rest key

/-- Model of Python `x in l` for a list of strings. -/
def listMemB (x : String) (l : List String) : Bool :=
  l.any (fun y => y == x)

/-- Concatenation of the lists produced for each element, in order. -/
def concatMap {α β : Type} (f : α → List β) : List α → List β
  | [] => []
  | a :: l => f a ++ concatMap f l

/-!  ## The syntax tree

Tree-sitter nodes (external collaborator, spec section 3): a type tag, a
start position `(row, column)` (0-based), byte offsets delimiting the source
substring, and the ordered children.  Parent links are recovered by searching
from the root; nodes are identified by their `(type, position, span)`, which
is injective on every tree produced from a real parse (all trees built below
have pairwise distinct spans). -/

inductive Node : Type where
  | node (t : String) (row col sb eb : Nat) (children : List Node)

def Node.type : Node → String
  | .node t _ _ _ _ _ => t

def Node.startRow : Node → Nat
  | .node _ r _ _ _ _ => r

def Node.startCol : Node → Nat
  | .node _ _ c _ _ _ => c

def Node.startByte : Node → Nat
  | .node _ _ _ sb _ _ => sb

def Node.endByte : Node → Nat
  | .node _ _ _ _ eb _ => eb

def Node.children : Node → List Node
  | .node _ _ _ _ _ cs => cs

/-- Positional identity of tree-sitter nodes. -/
def Node.sameId (a b : Node) : Bool :=
  a.type == b.type && a.startRow == b.startRow && a.startCol == b.startCol &&
  a.startByte == b.startByte && a.endByte == b.endByte

mutual

/-- Document-order (depth-first pre-order) listing of a subtree, the
traversal underlying `CodeParser.find_nodes_by_type`. -/
def preorder : Node → List Node
  | Node.node t r c sb eb cs => Node.node t r c sb eb cs :: preorderList cs

def preorderList : List Node → List Node
  | [] => []
  | n :: ns => preorder n ++ preorderList ns

end

/-- Embeds `CodeParser.find_nodes_by_type`: every node of the given type in the
subtree, in document order. -/
def find_nodes_by_type (root : Node) (node_type : String) : List Node :=
  (preorder root).filter (fun n => n.type == node_type)

/-- Embeds `CodeParser.get_node_text`: the source slice `content[startByte:endByte]`
(ASCII, so Python character indices equal byte offsets). -/
def get_node_text (n : Node) (content : String) : String :=
  String.mk ((content.data.drop n.startByte).take (n.endByte - n.startByte))

mutual

/-- The chain of strict ancestors of `target` inside the given subtree,
innermost first (used to model tree-sitter `.parent` links). -/
def pathTo (target : Node) : Node → Option (List Node)
  | Node.node t r c sb eb cs =>
    if Node.sameId (Node.node t r c sb eb cs) target then some []
    else
      match pathToList target cs with
      | some p => some (p ++ [Node.node t r c sb eb cs])
      | none => none

def pathToList (target : Node) : List Node → Option (List Node)
  | [] => none
  | n :: ns =>
    match pathTo target n with
    | some p => some p
    | none => pathToList target ns

end

/-- Model of tree-sitter `n.parent` inside the tree rooted at `root`. -/
def parentOf (root n : Node) : Option Node :=
  (pathTo n root).bind List.head?

/-- Embeds `ASTRule._find_containing_function` / the rules' climb to the enclosing
`function_definition`: nearest strict ancestor with that type. -/
def find_containing_function (root n : Node) : Option Node :=
  (pathTo n root).bind (fun anc => anc.find? (fun a => a.type == "function_definition"))

/-!  ## Issues, severities and the rule base class (`src/rules/base_rule.py`) -/

/-- Embeds `Severity` enumeration; the `value` strings are the Python enum values. -/
inductive Severity : Type where
  | CRITICAL
  | WARNING
  | SUGGESTION
deriving Repr, DecidableEq

/-- The Python enum member's `.value`. -/
def Severity.value : Severity → String
  | .CRITICAL => "严重"
  | .WARNING => "警告"
  | .SUGGESTION => "建议"

/-- Model of the Python enum constructor `Severity(value)`; `none` when the
constructor would raise `ValueError`. -/
def Severity.ofValue (v : String) : Option Severity :=
  if v == "严重" then some .CRITICAL
  else if v == "警告" then some .WARNING
  else if v == "建议" then some .SUGGESTION
  else none

/-- Embeds `RuleReference` dataclass. -/
structure RuleReference : Type where
  book : String
  chapter : String
  page : String
  url : String
  quote : String
deriving Repr, DecidableEq

/-- Embeds `Issue` dataclass: one finding. -/
structure Issue : Type where
  rule_id : String
  rule_name : String
  file_path : String
  line_number : Nat
  column : Nat
  severity : Severity
  message : String
  description : String
  code_snippet : String
  suggestion : String
  reference : String
deriving Repr, DecidableEq

/-- The parsed-file dictionary built by `CodeParser.parse_file`
(`path`, `content`, `root_node`, `lines`). -/
structure FileInfo : Type where
  path : String
  content : String
  root_node : Node
  lines : List String

/-- Build the `file_info` dict the way `CodeParser.parse_file` does
(`lines = content.split('\n')`). -/
def mkFileInfo (path content : String) (root : Node) : FileInfo :=
  { path := path, content := content, root_node := root, lines := splitLines content }

/-- The per-rule identity and metadata read by `BaseRule.create_issue`. -/
structure RuleMeta : Type where
  rule_id : String
  name_cn : String
  severity : Severity
  description_cn : String
  reference : RuleReference

/-- Embeds `BaseRule._format_reference`: the empty string when `book` is empty
(Python truthiness short-circuit), otherwise `book` plus the non-empty ones
of `chapter`, `page`, joined by `" - "`. -/
def format_reference (ref : RuleReference) : String :=
  if ref.book == "" then ""
  else
    let parts := [ref.book]
    let parts := if ref.chapter != "" then parts ++ [ref.chapter] else parts
    let parts := if ref.page != "" then parts ++ [ref.page] else parts
    joinWith " - " parts

/-- The snippet loop of `BaseRule.create_issue`: lines
`max(0, line_num-3) .. min(len(lines), line_num+2)`, the triggering line
prefixed `>>> `, the others with four blanks, each numbered 1-based and
padded to width 4, joined by newlines. -/
def build_code_snippet (lines : List String) (line_num : Nat) : String :=
  let start_line := max 0 (line_num - 3)
  let end_line := min lines.length (line_num + 2)
  let code_lines := (rangeFrom start_line (end_line - start_line)).map (fun i =>
    (if i == line_num - 1 then ">>> " else "    ") ++ padNum (i + 1) 4 ++ ": " ++ lines.getD i "")
  joinWith "\n" code_lines

/-- Embeds `BaseRule.create_issue`: location from the node's start point, a context
snippet of source lines `max(0, line-3) .. min(len(lines), line+2)` with the
triggering line marked `>>> ` and 1-based line numbers padded to width 4, and
the rule's metadata. -/
def create_issue (rule : RuleMeta) (file_info : FileInfo) (node : Node)
    (message suggestion : String) (custom_severity : Option Severity) : Issue :=
  let line_num := node.startRow + 1
  let column := node.startCol
  let lines := file_info.lines
  let code_snippet := build_code_snippet lines line_num
  { rule_id := rule.rule_id
    rule_name := rule.name_cn
    file_path := file_info.path
    line_number := line_num
    column := column
    severity := custom_severity.getD rule.severity
    message := message
    description := rule.description_cn
    code_snippet := code_snippet
    suggestion := suggestion
    reference := format_reference rule.reference }

/-!  ## The rule registry (`src/core/rule_engine.py`)

A `Rule` carries the two mutable configuration axes (`enabled`, `severity`)
plus its free-form `config` mapping and, for batch execution, its
`is_applicable` predicate and its `check` body; a `check` that raises in
Python is modelled as returning `Except.error`. -/

/-- JSON-representable configuration values (a rule's free-form `config`). -/
inductive JsonValue : Type where
  | null
  | bool (b : Bool)
  | num (n : Int)
  | str (s : String)
  | arr (xs : List JsonValue)
  | obj (fields : List (String × JsonValue))

/-- A registered rule. -/
structure Rule : Type where
  rule_id : String
  name_cn : String
  enabled : Bool
  severity : Severity
  category : String
  config : JsonValue
  is_applicable : FileInfo → Bool
  check : FileInfo → Except String (List Issue)

/-- Per-rule overrides inside a template's `rule_settings` entry
(`severity` is optional: Python tests `'severity' in settings`). -/
structure TemplateSetting : Type where
  severity : Option String
deriving Repr, DecidableEq

/-- A rule template (`name`, `enabled_rules`, `rule_settings`). -/
structure Template : Type where
  name : String
  description : String
  enabled_rules : List String
  rule_settings : List (String × TemplateSetting)
deriving Repr, DecidableEq

/-- The engine state: registered rules (in registration order) and the
template map. -/
structure Engine : Type where
  rules : List Rule
  rule_templates : List (String × Template)

/-- The body of the per-rule loop of `RuleEngine.apply_template`: set
`enabled` by membership, then apply a severity override if the settings
carry one.  The `Bool` is `false` when Python would raise `ValueError`
(invalid severity string) — note `enabled` has already been updated then. -/
def apply_template_rule (enabled_rules : List String)
    (rule_settings : List (String × TemplateSetting)) (rule : Rule) : Rule × Bool :=
  let rule := { rule with enabled := listMemB rule.rule_id enabled_rules }
  match dictGet rule_settings rule.rule_id with
  | none => (rule, true)
  | some settings =>
    match settings.severity with
    | none => (rule, true)
    | some v =>
      match Severity.ofValue v with
      | some sev => ({ rule with severity := sev }, true)
      | none => (rule, false)

/-- The `for rule in self.rules` loop of `apply_template`; stops at the first
rule whose severity string is invalid (the exception propagates, leaving the
remaining rules untouched). -/
def apply_template_go (enabled_rules : List String)
    (rule_settings : List (String × TemplateSetting)) : List Rule → List Rule × Bool
  | [] => ([], true)
  | r :: rs =>
    match apply_template_rule enabled_rules rule_settings r with
    | (r', true) =>
      let rest := apply_template_go enabled_rules rule_settings rs
      (r' :: rest.1, rest.2)
    | (r', false) => (r' :: rs, false)

/-- Embeds `RuleEngine.apply_template`.  An unknown template name is a no-op (with a
diagnostic).  The returned flag is `false` when the Python loop raised. -/
def RuleEngine.apply_template (eng : Engine) (template_name : String) : Engine × Bool :=
  match dictGet eng.rule_templates template_name with
  | none => (eng, true)
  | some template =>
    let res := apply_template_go template.enabled_rules template.rule_settings eng.rules
    ({ eng with rules := res.1 }, res.2)

/-- One entry of the exported `rule_settings` mapping.  `severity` and
`config` are `Option`s because `import_config` tests key presence;
`export_config` always writes them. -/
structure RuleSetting : Type where
  enabled : Bool
  severity : Option String
  category : String
  config : Option JsonValue

/-- The persisted configuration (`enabled_rules` + per-rule settings); the
write to / read from the JSON file is the identity on this value. -/
structure Config : Type where
  enabled_rules : List String
  rule_settings : List (String × RuleSetting)

/-- Embeds `RuleEngine.export_config`: ids of the enabled rules, plus the
`{enabled, severity.value, category, config}` record of every rule. -/
def RuleEngine.export_config (rules : List Rule) : Config :=
  { enabled_rules := (rules.filter (fun r => r.enabled)).map (fun r => r.rule_id)
    rule_settings := rules.map (fun r =>
      (r.rule_id,
       { enabled := r.enabled
         severity := some r.severity.value
         category := r.category
         config := some r.config })) }

/-- The per-rule body of the `import_config` loop: `enabled` from list
membership; severity parsed if present (an invalid string is caught and the
severity left unchanged); `config` replaced if present. -/
def import_config_rule (config : Config) (rule : Rule) : Rule :=
  let rule := { rule with enabled := listMemB rule.rule_id config.enabled_rules }
  match dictGet config.rule_settings rule.rule_id with
  | none => rule
  | some settings =>
    let rule :=
      match settings.severity with
      | some v =>
        match Severity.ofValue v with
        | some sev => { rule with severity := sev }
        | none => rule
      | none => rule
    match settings.config with
    | some c => { rule with config := c }
    | none => rule

/-- Embeds `RuleEngine.import_config` applied to the registered rules. -/
def RuleEngine.import_config (rules : List Rule) (config : Config) : List Rule :=
  rules.map (import_config_rule config)

/-- Embeds `RuleEngine.get_enabled_rules`: filter by the flag, preserving order. -/
def RuleEngine.get_enabled_rules (eng : Engine) : List Rule :=
  eng.rules.filter (fun r => r.enabled)

/-- The inner `for rule in enabled_rules` loop of `RuleEngine.check_files`:
starting from an empty `file_issues`, run each applicable rule, extending by
its issues on success and catching (skipping) a raising `check`. -/
def check_files_file_issues (enabled_rules : List Rule) (file_info : FileInfo) :
    List Issue :=
  enabled_rules.foldl
    (fun (file_issues : List Issue) rule =>
      if rule.is_applicable file_info then
        match rule.check file_info with
        | Except.ok issues => file_issues ++ issues
        | Except.error _ => file_issues
      else file_issues)
    []

/-- Embeds `RuleEngine.check_files`: for each file in order, for each enabled rule
in order, run the rule if applicable, catching a raising `check` (which then
contributes no issues); returns the engine state (read but never written)
and the accumulated issues (`all_issues` starts empty and is extended by
each file's `file_issues`). -/
def RuleEngine.check_files (eng : Engine) (parsed_files : List FileInfo) :
    Engine × List Issue :=
  let enabled_rules := RuleEngine.get_enabled_rules eng
  if enabled_rules.isEmpty then (eng, [])
  else
    parsed_files.foldl
      (fun (st : Engine × List Issue) file_info =>
        (st.1, st.2 ++ check_files_file_issues enabled_rules file_info))
      (eng, [])

/-!  ## Concrete rules: logic errors (`src/rules/logic_rules.py`) -/

/-- Identity/metadata set in `AssignmentInConditionRule.__init__`. -/
def AssignmentInConditionRule.meta : RuleMeta :=
  { rule_id := "L001"
    name_cn := "条件中赋值检查"
    severity := Severity.CRITICAL
    description_cn := "检测条件语句中的赋值操作（可能是误写）"
    reference := { book := "《C陷阱与缺陷》", chapter := "第1章", page := "P8-P12",
                   url := "", quote := "= 和 == 的混淆是C语言中最常见的错误之一" } }

/-- Embeds `AssignmentInConditionRule._find_condition_in_statement`: the first child
of the statement that is a parenthesized expression. -/
def find_condition_in_statement (stmt : Node) : Option Node :=
  stmt.children.find? (fun c => c.type == "parenthesized_expression")

/-- Embeds `AssignmentInConditionRule._is_simple_assignment`: the node's text
contains `=` but none of `==`, `!=`, `+=`, `-=`, `*=`, `/=`. -/
def is_simple_assignment (assign : Node) (content : String) : Bool :=
  let assign_text := get_node_text assign content
  strContains assign_text "=" &&
  !strContains assign_text "==" &&
  !strContains assign_text "!=" &&
  !strContains assign_text "+=" &&
  !strContains assign_text "-=" &&
  !strContains assign_text "*=" &&
  !strContains assign_text "/="

/-- Embeds `AssignmentInConditionRule._is_intentional_assignment`: both the parent
and the grandparent of the assignment are parenthesized expressions. -/
def is_intentional_assignment (root assign : Node) : Bool :=
  match pathTo assign root with
  | some (p :: pp :: _) =>
    p.type == "parenthesized_expression" && pp.type == "parenthesized_expression"
  | _ => false

/-- Embeds `AssignmentInConditionRule.check`: for every `if`/`while`/`for`
statement, flag each simple, non-intentional assignment inside its
parenthesized condition. -/
def AssignmentInConditionRule.check (file_info : FileInfo) : List Issue :=
  let root := file_info.root_node
  let content := file_info.content
  let condition_statements :=
    find_nodes_by_type root "if_statement" ++
    find_nodes_by_type root "while_statement" ++
    find_nodes_by_type root "for_statement"
  concatMap (fun stmt =>
    match find_condition_in_statement stmt with
    | none => []
    | some condition_node =>
      concatMap (fun assign_node =>
        if is_simple_assignment assign_node content &&
           !is_intentional_assignment root assign_node then
          [create_issue AssignmentInConditionRule.meta file_info assign_node
            "条件语句中发现赋值操作，可能是误写了 = 而不是 =="
            "检查是否应该使用 == 进行比较，或用括号明确表示有意赋值" none]
        else [])
        (find_nodes_by_type condition_node "assignment_expression"))
    condition_statements

/-- Identity/metadata set in `SwitchFallthroughRule.__init__`. -/
def SwitchFallthroughRule.meta : RuleMeta :=
  { rule_id := "L002"
    name_cn := "Switch缺少break"
    severity := Severity.WARNING
    description_cn := "检测switch语句中缺少break的情况"
    reference := { book := "《C陷阱与缺陷》", chapter := "第4章", page := "P45-P52",
                   url := "", quote := "switch语句的穿透特性是C语言的一个陷阱" } }

/-- Embeds `SwitchFallthroughRule._find_switch_body`: the switch's compound
statement child. -/
def find_switch_body (switch_node : Node) : Option Node :=
  switch_node.children.find? (fun c => c.type == "compound_statement")

/-- Embeds `SwitchFallthroughRule._has_break_or_return`: some break or return in the
case's parent subtree starts strictly after the case's start line and, when a
next case exists, strictly before that next case's start line. -/
def has_break_or_return (root case_node : Node) (all_cases : List Node)
    (case_index : Nat) : Bool :=
  let next_case_line := (all_cases.get? (case_index + 1)).map Node.startRow
  let case_start_line := case_node.startRow
  match parentOf root case_node with
  | none => false
  | some parent =>
    let break_nodes := find_nodes_by_type parent "break_statement"
    let return_nodes := find_nodes_by_type parent "return_statement"
    (break_nodes ++ return_nodes).any (fun b =>
      decide (case_start_line < b.startRow) &&
      match next_case_line with
      | none => true
      | some l => decide (b.startRow < l))

/-- Embeds `SwitchFallthroughRule._has_fallthrough_comment`: a fallthrough-intent
substring (case-insensitive) on one of the lines
`case_line .. min(case_line+5, len(lines))` of the file's content. -/
def has_fallthrough_comment (content : String) (case_node : Node) : Bool :=
  let lines := splitLines content
  let case_line := case_node.startRow
  (rangeFrom case_line (min (case_line + 5) lines.length - case_line)).any (fun i =>
    let line_content := strToLower (lines.getD i "")
    strContains line_content "fallthrough" ||
    strContains line_content "fall through" ||
    strContains line_content "falls through")

/-- The flagging condition of the per-case loop in
`SwitchFallthroughRule.check`. -/
def SwitchFallthroughRule.caseFlagged (root : Node) (content : String)
    (all_cases : List Node) (case_index : Nat) (case_node : Node) : Bool :=
  !has_break_or_return root case_node all_cases case_index &&
  !has_fallthrough_comment content case_node

/-- Embeds `SwitchFallthroughRule.check`: for every switch body, flag each case
statement with neither a break/return in its line range nor a fallthrough
comment. -/
def SwitchFallthroughRule.check (file_info : FileInfo) : List Issue :=
  let root := file_info.root_node
  let content := file_info.content
  concatMap (fun switch_node =>
    match find_switch_body switch_node with
    | none => []
    | some switch_body =>
      let case_nodes := find_nodes_by_type switch_body "case_statement"
      concatMap (fun ic =>
        if SwitchFallthroughRule.caseFlagged root content case_nodes ic.1 ic.2 then
          [create_issue SwitchFallthroughRule.meta file_info ic.2
            "case语句缺少break，可能导致意外的穿透执行"
            "添加break语句，或用注释明确说明有意穿透" none]
        else [])
        (enumFrom 0 case_nodes))
    (find_nodes_by_type root "switch_statement")

/-- Identity/metadata set in `DivisionByZeroRule.__init__`. -/
def DivisionByZeroRule.meta : RuleMeta :=
  { rule_id := "L005"
    name_cn := "除零检查"
    severity := Severity.CRITICAL
    description_cn := "检测可能的除零操作"
    reference := { book := "《C陷阱与缺陷》", chapter := "第6章", page := "P78-P82",
                   url := "", quote := "除零是未定义行为" } }

/-- Embeds `DivisionByZeroRule._has_zero_check`: some `if` statement of the
enclosing function whose text contains `name != 0`, `name > 0` or
`0 != name`. -/
def has_zero_check (root division_node : Node) (divisor_name content : String) : Bool :=
  match find_containing_function root division_node with
  | none => false
  | some func_node =>
    (find_nodes_by_type func_node "if_statement").any (fun if_node =>
      let if_text := get_node_text if_node content
      strContains if_text (divisor_name ++ " != 0") ||
      strContains if_text (divisor_name ++ " > 0") ||
      strContains if_text ("0 != " ++ divisor_name))

/-- The issues contributed by one binary expression in
`DivisionByZeroRule.check`. -/
def DivisionByZeroRule.checkNode (root : Node) (content : String)
    (file_info : FileInfo) (binary_node : Node) : List Issue :=
  match binary_node.children with
  | _left :: op_node :: right_node :: _ =>
    let op_text := get_node_text op_node content
    if op_text == "/" || op_text == "%" then
      let right_text := trimChars (get_node_text right_node content)
      if right_text == "0" || right_text == "0.0" then
        [create_issue DivisionByZeroRule.meta file_info binary_node
          ("检测到" ++ op_text ++ "零操作")
          "在进行除法运算前检查除数是否为零" none]
      else if !has_zero_check root binary_node right_text content then
        [create_issue DivisionByZeroRule.meta file_info binary_node
          ("除法运算未检查除数" ++ right_text ++ "是否为零")
          ("在除法前添加检查: if(" ++ right_text ++ " != 0)")
          (some Severity.WARNING)]
      else []
    else []
  | _ => []

/-- Embeds `DivisionByZeroRule.check`: literal zero divisor ⇒ issue at the rule's
(Critical) severity; variable divisor without a zero guard in the enclosing
function ⇒ Warning issue. -/
def DivisionByZeroRule.check (file_info : FileInfo) : List Issue :=
  concatMap (DivisionByZeroRule.checkNode file_info.root_node file_info.content file_info)
    (find_nodes_by_type file_info.root_node "binary_expression")

/-!  ## Concrete rules: memory safety (`src/rules/memory_rules.py`) -/

/-- Identity/metadata set in `ArrayBoundsRule.__init__`. -/
def ArrayBoundsRule.meta : RuleMeta :=
  { rule_id := "C001"
    name_cn := "数组越界检查"
    severity := Severity.CRITICAL
    description_cn := "检测可能的数组下标越界访问"
    reference := { book := "《C陷阱与缺陷》", chapter := "第2章", page := "P23-P27",
                   url := "", quote := "数组下标从0开始是C语言的一个陷阱..." } }

/-- Embeds `ArrayBoundsRule._is_numeric_constant` (`int(text)` succeeds). -/
def is_numeric_constant (text : String) : Bool :=
  (parseInt? text).isSome

/-- Embeds `ArrayBoundsRule._find_array_size`: scan every array declarator of the
tree; the first one whose name matches and whose size text parses as an
integer yields that size (a matching declarator with a non-literal size is
skipped and the scan continues). -/
def find_array_size (root : Node) (array_name content : String) : Option Int :=
  (find_nodes_by_type root "array_declarator").findSome? (fun decl_node =>
    match decl_node.children with
    | name_node :: _ :: size_node :: _ =>
      if get_node_text name_node content == array_name then
        parseInt? (trimChars (get_node_text size_node content))
      else none
    | _ => none)

/-- The issues contributed by one subscript expression in
`ArrayBoundsRule.check`. -/
def ArrayBoundsRule.checkNode (root : Node) (content : String)
    (file_info : FileInfo) (n : Node) : List Issue :=
  match n.children with
  | array_node :: _ :: index_node :: _ =>
    let index_text := trimChars (get_node_text index_node content)
    match parseInt? index_text with
    | none => []
    | some index_value =>
      let array_name := get_node_text array_node content
      match find_array_size root array_name content with
      | none => []
      | some array_size =>
        if index_value ≥ array_size then
          [create_issue ArrayBoundsRule.meta file_info n
            ("数组" ++ array_name ++ "大小为" ++ toString array_size ++
             "，但访问索引" ++ toString index_value ++ "超出范围")
            ("将索引改为0到" ++ toString (array_size - 1) ++ "之间的值") none]
        else if index_value < 0 then
          [create_issue ArrayBoundsRule.meta file_info n
            ("数组" ++ array_name ++ "使用负数索引" ++ toString index_value)
            "数组索引必须为非负数" none]
        else []
  | _ => []

/-- Embeds `ArrayBoundsRule.check`: statically checkable subscripts against the
declared size found in the same tree. -/
def ArrayBoundsRule.check (file_info : FileInfo) : List Issue :=
  concatMap (ArrayBoundsRule.checkNode file_info.root_node file_info.content file_info)
    (find_nodes_by_type file_info.root_node "subscript_expression")

/-!  ## Concrete parsed files for the behavioural test properties

Each `fileXY` below is the tree-sitter parse (hand-transcribed, with exact
rows/columns/byte spans) of a small C source, as `CodeParser.parse_file`
would hand it to the rules. -/

/-- Shorthand node constructor: type, start row, start column, start byte,
end byte, children. -/
def tn (t : String) (row col sb eb : Nat) (children : List Node) : Node :=
  Node.node t row col sb eb children

/-- Source `int f() { if (x = 5) { } }` over four lines. -/
def content3a : String :=
  "int f() \x7b\n    if (x = 5) \x7b\n    \x7d\n\x7d"

def assign3a : Node :=
  tn "assignment_expression" 1 8 18 23
    [tn "identifier" 1 8 18 19 [], tn "=" 1 10 20 21 [], tn "number_literal" 1 12 22 23 []]

def root3a : Node :=
  tn "translation_unit" 0 0 0 34
    [tn "function_definition" 0 0 0 34
      [tn "primitive_type" 0 0 0 3 [],
       tn "function_declarator" 0 4 4 7
         [tn "identifier" 0 4 4 5 [],
          tn "parameter_list" 0 5 5 7 [tn "(" 0 5 5 6 [], tn ")" 0 6 6 7 []]],
       tn "compound_statement" 0 8 8 34
         [tn "\x7b" 0 8 8 9 [],
          tn "if_statement" 1 4 14 32
            [tn "if" 1 4 14 16 [],
             tn "parenthesized_expression" 1 7 17 24
               [tn "(" 1 7 17 18 [], assign3a, tn ")" 1 13 23 24 []],
             tn "compound_statement" 1 15 25 32
               [tn "\x7b" 1 15 25 26 [], tn "\x7d" 2 4 31 32 []]],
          tn "\x7d" 3 0 33 34 []]]]

def file3a : FileInfo := mkFileInfo "test_a.c" content3a root3a

/-- Source `int f() { if (x == 5) { } }` over four lines. -/
def content3b : String :=
  "int f() \x7b\n    if (x == 5) \x7b\n    \x7d\n\x7d"

def root3b : Node :=
  tn "translation_unit" 0 0 0 35
    [tn "function_definition" 0 0 0 35
      [tn "primitive_type" 0 0 0 3 [],
       tn "function_declarator" 0 4 4 7
         [tn "identifier" 0 4 4 5 [],
          tn "parameter_list" 0 5 5 7 [tn "(" 0 5 5 6 [], tn ")" 0 6 6 7 []]],
       tn "compound_statement" 0 8 8 35
         [tn "\x7b" 0 8 8 9 [],
          tn "if_statement" 1 4 14 33
            [tn "if" 1 4 14 16 [],
             tn "parenthesized_expression" 1 7 17 25
               [tn "(" 1 7 17 18 [],
                tn "binary_expression" 1 8 18 24
                  [tn "identifier" 1 8 18 19 [], tn "==" 1 10 20 22 [],
                   tn "number_literal" 1 13 23 24 []],
                tn ")" 1 14 24 25 []],
             tn "compound_statement" 1 16 26 33
               [tn "\x7b" 1 16 26 27 [], tn "\x7d" 2 4 32 33 []]],
          tn "\x7d" 3 0 34 35 []]]]

def file3b : FileInfo := mkFileInfo "test_b.c" content3b root3b

/-- Source `int f() { if ((x = 5) != 0) { } }` over four lines: the assignment is
wrapped in an extra parenthesis pair, but its grandparent is the `!=`
binary expression, not a parenthesized expression. -/
def content3c : String :=
  "int f() \x7b\n    if ((x = 5) != 0) \x7b\n    \x7d\n\x7d"

def assign3c : Node :=
  tn "assignment_expression" 1 9 19 24
    [tn "identifier" 1 9 19 20 [], tn "=" 1 11 21 22 [], tn "number_literal" 1 13 23 24 []]

def root3c : Node :=
  tn "translation_unit" 0 0 0 41
    [tn "function_definition" 0 0 0 41
      [tn "primitive_type" 0 0 0 3 [],
       tn "function_declarator" 0 4 4 7
         [tn "identifier" 0 4 4 5 [],
          tn "parameter_list" 0 5 5 7 [tn "(" 0 5 5 6 [], tn ")" 0 6 6 7 []]],
       tn "compound_statement" 0 8 8 41
         [tn "\x7b" 0 8 8 9 [],
          tn "if_statement" 1 4 14 39
            [tn "if" 1 4 14 16 [],
             tn "parenthesized_expression" 1 7 17 31
               [tn "(" 1 7 17 18 [],
                tn "binary_expression" 1 8 18 30
                  [tn "parenthesized_expression" 1 8 18 25
                     [tn "(" 1 8 18 19 [], assign3c, tn ")" 1 14 24 25 []],
                   tn "!=" 1 16 26 28 [],
                   tn "number_literal" 1 19 29 30 []],
                tn ")" 1 20 30 31 []],
             tn "compound_statement" 1 22 32 39
               [tn "\x7b" 1 22 32 33 [], tn "\x7d" 2 4 38 39 []]],
          tn "\x7d" 3 0 40 41 []]]]

def file3c : FileInfo := mkFileInfo "test_c.c" content3c root3c

/-- Source `int f() { if ((x = 5)) { } }` over four lines: parent and grandparent
of the assignment are both parenthesized expressions. -/
def content3d : String :=
  "int f() \x7b\n    if ((x = 5)) \x7b\n    \x7d\n\x7d"

def assign3d : Node :=
  tn "assignment_expression" 1 9 19 24
    [tn "identifier" 1 9 19 20 [], tn "=" 1 11 21 22 [], tn "number_literal" 1 13 23 24 []]

def root3d : Node :=
  tn "translation_unit" 0 0 0 36
    [tn "function_definition" 0 0 0 36
      [tn "primitive_type" 0 0 0 3 [],
       tn "function_declarator" 0 4 4 7
         [tn "identifier" 0 4 4 5 [],
          tn "parameter_list" 0 5 5 7 [tn "(" 0 5 5 6 [], tn ")" 0 6 6 7 []]],
       tn "compound_statement" 0 8 8 36
         [tn "\x7b" 0 8 8 9 [],
          tn "if_statement" 1 4 14 34
            [tn "if" 1 4 14 16 [],
             tn "parenthesized_expression" 1 7 17 26
               [tn "(" 1 7 17 18 [],
                tn "parenthesized_expression" 1 8 18 25
                  [tn "(" 1 8 18 19 [], assign3d, tn ")" 1 14 24 25 []],
                tn ")" 1 15 25 26 []],
             tn "compound_statement" 1 17 27 34
               [tn "\x7b" 1 17 27 28 [], tn "\x7d" 2 4 33 34 []]],
          tn "\x7d" 3 0 35 36 []]]]

def file3d : FileInfo := mkFileInfo "test_d.c" content3d root3d

/-- Source `int f() { int r = a / 0; }` over three lines. -/
def content4a : String :=
  "int f() \x7b\n    int r = a / 0;\n\x7d"

def root4a : Node :=
  tn "translation_unit" 0 0 0 30
    [tn "function_definition" 0 0 0 30
      [tn "primitive_type" 0 0 0 3 [],
       tn "function_declarator" 0 4 4 7
         [tn "identifier" 0 4 4 5 [],
          tn "parameter_list" 0 5 5 7 [tn "(" 0 5 5 6 [], tn ")" 0 6 6 7 []]],
       tn "compound_statement" 0 8 8 30
         [tn "\x7b" 0 8 8 9 [],
          tn "declaration" 1 4 14 28
            [tn "primitive_type" 1 4 14 17 [],
             tn "init_declarator" 1 8 18 27
               [tn "identifier" 1 8 18 19 [], tn "=" 1 10 20 21 [],
                tn "binary_expression" 1 12 22 27
                  [tn "identifier" 1 12 22 23 [], tn "/" 1 14 24 25 [],
                   tn "number_literal" 1 16 26 27 []]],
             tn ";" 1 17 27 28 []],
          tn "\x7d" 2 0 29 30 []]]]

def file4a : FileInfo := mkFileInfo "div_a.c" content4a root4a

/-- Source `int f() { int r = a / b; }` over three lines (no guard anywhere). -/
def content4b : String :=
  "int f() \x7b\n    int r = a / b;\n\x7d"

def root4b : Node :=
  tn "translation_unit" 0 0 0 30
    [tn "function_definition" 0 0 0 30
      [tn "primitive_type" 0 0 0 3 [],
       tn "function_declarator" 0 4 4 7
         [tn "identifier" 0 4 4 5 [],
          tn "parameter_list" 0 5 5 7 [tn "(" 0 5 5 6 [], tn ")" 0 6 6 7 []]],
       tn "compound_statement" 0 8 8 30
         [tn "\x7b" 0 8 8 9 [],
          tn "declaration" 1 4 14 28
            [tn "primitive_type" 1 4 14 17 [],
             tn "init_declarator" 1 8 18 27
               [tn "identifier" 1 8 18 19 [], tn "=" 1 10 20 21 [],
                tn "binary_expression" 1 12 22 27
                  [tn "identifier" 1 12 22 23 [], tn "/" 1 14 24 25 [],
                   tn "identifier" 1 16 26 27 []]],
             tn ";" 1 17 27 28 []],
          tn "\x7d" 2 0 29 30 []]]]

def file4b : FileInfo := mkFileInfo "div_b.c" content4b root4b

/-- Source `int f() { if (b != 0) { r = a / b; } }` over five lines: the guard
precedes the division. -/
def content4c : String :=
  "int f() \x7b\n    if (b != 0) \x7b\n        r = a / b;\n    \x7d\n\x7d"

def root4c : Node :=
  tn "translation_unit" 0 0 0 54
    [tn "function_definition" 0 0 0 54
      [tn "primitive_type" 0 0 0 3 [],
       tn "function_declarator" 0 4 4 7
         [tn "identifier" 0 4 4 5 [],
          tn "parameter_list" 0 5 5 7 [tn "(" 0 5 5 6 [], tn ")" 0 6 6 7 []]],
       tn "compound_statement" 0 8 8 54
         [tn "\x7b" 0 8 8 9 [],
          tn "if_statement" 1 4 14 52
            [tn "if" 1 4 14 16 [],
             tn "parenthesized_expression" 1 7 17 25
               [tn "(" 1 7 17 18 [],
                tn "binary_expression" 1 8 18 24
                  [tn "identifier" 1 8 18 19 [], tn "!=" 1 10 20 22 [],
                   tn "number_literal" 1 13 23 24 []],
                tn ")" 1 14 24 25 []],
             tn "compound_statement" 1 16 26 52
               [tn "\x7b" 1 16 26 27 [],
                tn "expression_statement" 2 8 36 46
                  [tn "assignment_expression" 2 8 36 45
                     [tn "identifier" 2 8 36 37 [], tn "=" 2 10 38 39 [],
                      tn "binary_expression" 2 12 40 45
                        [tn "identifier" 2 12 40 41 [], tn "/" 2 14 42 43 [],
                         tn "identifier" 2 16 44 45 []]],
                   tn ";" 2 17 45 46 []],
                tn "\x7d" 3 4 51 52 []]],
          tn "\x7d" 4 0 53 54 []]]]

def file4c : FileInfo := mkFileInfo "div_c.c" content4c root4c

/-- Source `int f() { int r = a / b; if (b != 0) { } }` over five lines: the only
guard comes textually after the division. -/
def content4d : String :=
  "int f() \x7b\n    int r = a / b;\n    if (b != 0) \x7b\n    \x7d\n\x7d"

def div4d : Node :=
  tn "binary_expression" 1 12 22 27
    [tn "identifier" 1 12 22 23 [], tn "/" 1 14 24 25 [], tn "identifier" 1 16 26 27 []]

def root4d : Node :=
  tn "translation_unit" 0 0 0 54
    [tn "function_definition" 0 0 0 54
      [tn "primitive_type" 0 0 0 3 [],
       tn "function_declarator" 0 4 4 7
         [tn "identifier" 0 4 4 5 [],
          tn "parameter_list" 0 5 5 7 [tn "(" 0 5 5 6 [], tn ")" 0 6 6 7 []]],
       tn "compound_statement" 0 8 8 54
         [tn "\x7b" 0 8 8 9 [],
          tn "declaration" 1 4 14 28
            [tn "primitive_type" 1 4 14 17 [],
             tn "init_declarator" 1 8 18 27
               [tn "identifier" 1 8 18 19 [], tn "=" 1 10 20 21 [], div4d],
             tn ";" 1 17 27 28 []],
          tn "if_statement" 2 4 33 52
            [tn "if" 2 4 33 35 [],
             tn "parenthesized_expression" 2 7 36 44
               [tn "(" 2 7 36 37 [],
                tn "binary_expression" 2 8 37 43
                  [tn "identifier" 2 8 37 38 [], tn "!=" 2 10 39 41 [],
                   tn "number_literal" 2 13 42 43 []],
                tn ")" 2 14 43 44 []],
             tn "compound_statement" 2 16 45 52
               [tn "\x7b" 2 16 45 46 [], tn "\x7d" 3 4 51 52 []]],
          tn "\x7d" 4 0 53 54 []]]]

def file4d : FileInfo := mkFileInfo "div_d.c" content4d root4d

/-- A switch with `case 1: foo();` falling into `case 2: bar(); break;`,
over nine lines. -/
def content6a : String :=
  "int f(int x) \x7b\n    switch (x) \x7b\n        case 1:\n            foo();\n        case 2:\n            bar();\n            break;\n    \x7d\n\x7d"

def case6a1 : Node :=
  tn "case_statement" 2 8 40 66
    [tn "case" 2 8 40 44 [], tn "number_literal" 2 13 45 46 [], tn ":" 2 14 46 47 [],
     tn "expression_statement" 3 12 60 66
       [tn "call_expression" 3 12 60 65
          [tn "identifier" 3 12 60 63 [],
           tn "argument_list" 3 15 63 65 [tn "(" 3 15 63 64 [], tn ")" 3 16 64 65 []]],
        tn ";" 3 17 65 66 []]]

def case6a2 : Node :=
  tn "case_statement" 4 8 75 120
    [tn "case" 4 8 75 79 [], tn "number_literal" 4 13 80 81 [], tn ":" 4 14 81 82 [],
     tn "expression_statement" 5 12 95 101
       [tn "call_expression" 5 12 95 100
          [tn "identifier" 5 12 95 98 [],
           tn "argument_list" 5 15 98 100 [tn "(" 5 15 98 99 [], tn ")" 5 16 99 100 []]],
        tn ";" 5 17 100 101 []],
     tn "break_statement" 6 12 114 120
       [tn "break" 6 12 114 119 [], tn ";" 6 17 119 120 []]]

def root6a : Node :=
  tn "translation_unit" 0 0 0 128
    [tn "function_definition" 0 0 0 128
      [tn "primitive_type" 0 0 0 3 [],
       tn "function_declarator" 0 4 4 12
         [tn "identifier" 0 4 4 5 [],
          tn "parameter_list" 0 5 5 12
            [tn "(" 0 5 5 6 [],
             tn "parameter_declaration" 0 6 6 11
               [tn "primitive_type" 0 6 6 9 [], tn "identifier" 0 10 10 11 []],
             tn ")" 0 11 11 12 []]],
       tn "compound_statement" 0 13 13 128
         [tn "\x7b" 0 13 13 14 [],
          tn "switch_statement" 1 4 19 126
            [tn "switch" 1 4 19 25 [],
             tn "parenthesized_expression" 1 11 26 29
               [tn "(" 1 11 26 27 [], tn "identifier" 1 12 27 28 [], tn ")" 1 13 28 29 []],
             tn "compound_statement" 1 15 30 126
               [tn "\x7b" 1 15 30 31 [], case6a1, case6a2, tn "\x7d" 7 4 125 126 []]],
          tn "\x7d" 8 0 127 128 []]]]

def file6a : FileInfo := mkFileInfo "switch_a.c" content6a root6a

/-- The same switch with a `/* fall through */` comment after `foo();`. -/
def content6b : String :=
  "int f(int x) \x7b\n    switch (x) \x7b\n        case 1:\n            foo(); /* fall through */\n        case 2:\n            bar();\n            break;\n    \x7d\n\x7d"

def case6b1 : Node :=
  tn "case_statement" 2 8 40 85
    [tn "case" 2 8 40 44 [], tn "number_literal" 2 13 45 46 [], tn ":" 2 14 46 47 [],
     tn "expression_statement" 3 12 60 66
       [tn "call_expression" 3 12 60 65
          [tn "identifier" 3 12 60 63 [],
           tn "argument_list" 3 15 63 65 [tn "(" 3 15 63 64 [], tn ")" 3 16 64 65 []]],
        tn ";" 3 17 65 66 []],
     tn "comment" 3 19 67 85 []]

def case6b2 : Node :=
  tn "case_statement" 4 8 94 139
    [tn "case" 4 8 94 98 [], tn "number_literal" 4 13 99 100 [], tn ":" 4 14 100 101 [],
     tn "expression_statement" 5 12 114 120
       [tn "call_expression" 5 12 114 119
          [tn "identifier" 5 12 114 117 [],
           tn "argument_list" 5 15 117 119 [tn "(" 5 15 117 118 [], tn ")" 5 16 118 119 []]],
        tn ";" 5 17 119 120 []],
     tn "break_statement" 6 12 133 139
       [tn "break" 6 12 133 138 [], tn ";" 6 17 138 139 []]]

def root6b : Node :=
  tn "translation_unit" 0 0 0 147
    [tn "function_definition" 0 0 0 147
      [tn "primitive_type" 0 0 0 3 [],
       tn "function_declarator" 0 4 4 12
         [tn "identifier" 0 4 4 5 [],
          tn "parameter_list" 0 5 5 12
            [tn "(" 0 5 5 6 [],
             tn "parameter_declaration" 0 6 6 11
               [tn "primitive_type" 0 6 6 9 [], tn "identifier" 0 10 10 11 []],
             tn ")" 0 11 11 12 []]],
       tn "compound_statement" 0 13 13 147
         [tn "\x7b" 0 13 13 14 [],
          tn "switch_statement" 1 4 19 145
            [tn "switch" 1 4 19 25 [],
             tn "parenthesized_expression" 1 11 26 29
               [tn "(" 1 11 26 27 [], tn "identifier" 1 12 27 28 [], tn ")" 1 13 28 29 []],
             tn "compound_statement" 1 15 30 145
               [tn "\x7b" 1 15 30 31 [], case6b1, case6b2, tn "\x7d" 7 4 144 145 []]],
          tn "\x7d" 8 0 146 147 []]]]

def file6b : FileInfo := mkFileInfo "switch_b.c" content6b root6b

/-!  ## Specification-side definitions

These follow the wording of the specification (not the code) and are
compared with the embedded source functions in the theorems below. -/

/-- Spec wording for the reference formatter, amended to match the code's
behaviour on an empty `book`: empty `book` ⇒ empty string, otherwise the
non-empty fields among book/chapter/page joined by the separator. -/
def formatReferenceSpec (ref : RuleReference) : String :=
  if ref.book == "" then ""
  else joinWith " - " ([ref.book, ref.chapter, ref.page].filter (fun s => s != ""))

/-- Spec wording for the snippet window of the issue-construction helper:
the source lines with 0-based indices from `max(0, line-3)` to
`min(lineCount, line+2)` exclusive, the triggering line marked with `>>> `,
others blank-prefixed, each with its 1-based number padded to width 4,
joined by newlines. -/
def snippetSpec (lines : List String) (line : Nat) : String :=
  joinWith "\n"
    (((rangeFrom 0 (min lines.length (line + 2))).drop (max 0 (line - 3))).map (fun i =>
      (if i + 1 == line then ">>> " else "    ") ++ padNum (i + 1) 4 ++ ": " ++ lines.getD i ""))

/-- Spec-side reading of C4's guard search («search the enclosing function
for a *prior* `if` whose condition textually guards that variable»): only
`if` statements that start on an earlier line than the division count. -/
def priorGuardExists (root division_node : Node) (divisor_name content : String) : Bool :=
  match find_containing_function root division_node with
  | none => false
  | some func_node =>
    (find_nodes_by_type func_node "if_statement").any (fun if_node =>
      decide (if_node.startRow < division_node.startRow) &&
      (strContains (get_node_text if_node content) (divisor_name ++ " != 0") ||
       strContains (get_node_text if_node content) (divisor_name ++ " > 0") ||
       strContains (get_node_text if_node content) ("0 != " ++ divisor_name)))

/-- Spec-side flagging condition for a subscript expression (array-bounds
rule): the index is a literal integer, the declared size is findable in the
same tree, and the index is negative or at least the size. -/
def subscriptFlagged (root : Node) (content : String) (n : Node) : Bool :=
  match n.children with
  | array_node :: _ :: index_node :: _ =>
    match parseInt? (trimChars (get_node_text index_node content)),
          find_array_size root (get_node_text array_node content) content with
    | some index_value, some array_size =>
      decide (index_value < 0) || decide (array_size ≤ index_value)
    | _, _ => false
  | _ => false

/-- Spec wording for «a break or return statement lies strictly within the
case's line range»: some break/return of the case's parent subtree starts
strictly after the case's line and strictly before the next case's line
(no upper bound for the last case). -/
def specBreakInRange (root case_node : Node) (all_cases : List Node)
    (case_index : Nat) : Prop :=
  ∃ p, parentOf root case_node = some p ∧
    ∃ b, (b ∈ find_nodes_by_type p "break_statement" ∨
          b ∈ find_nodes_by_type p "return_statement") ∧
      case_node.startRow < b.startRow ∧
      ∀ nc, all_cases.get? (case_index + 1) = some nc → b.startRow < nc.startRow

/-- Spec wording for «a fallthrough-intent comment appears within 5 lines
after the case label» (case-insensitive, starting at the label's own
line). -/
def specFallthroughComment (content : String) (case_node : Node) : Prop :=
  ∃ i, case_node.startRow ≤ i ∧
    i < min (case_node.startRow + 5) (splitLines content).length ∧
    (strContains (strToLower ((splitLines content).getD i "")) "fallthrough" = true ∨
     strContains (strToLower ((splitLines content).getD i "")) "fall through" = true ∨
     strContains (strToLower ((splitLines content).getD i "")) "falls through" = true)

/-- Spec wording for the batch run: the issues of the (file order, rule
order) pairs whose applicable `check` succeeded, a raising rule contributing
zero issues for that file. -/
def rule_file_issues (rule : Rule) (file_info : FileInfo) : List Issue :=
  if rule.is_applicable file_info then
    match rule.check file_info with
    | Except.ok issues => issues
    | Except.error _ => []
  else []

/-- Spec wording for the result of a batch run (see `rule_file_issues`). -/
def collectedIssues (rules : List Rule) (files : List FileInfo) : List Issue :=
  concatMap (fun file_info =>
    concatMap (fun rule => rule_file_issues rule file_info)
      (rules.filter (fun r => r.enabled)))
    files

/-!  ## Helper lemmas -/

theorem any_iff_exists {α : Type} (p : α → Bool) (l : List α) :
    l.any p = true ↔ ∃ x, x ∈ l ∧ p x = true := by
  induction l with
  | nil => simp
  | cons a l ih =>
    simp only [List.any_cons, Bool.or_eq_true, ih, List.mem_cons]
    constructor
    · rintro (h | ⟨x, hx, hp⟩)
      · exact ⟨a, Or.inl rfl, h⟩
      · exact ⟨x, Or.inr hx, hp⟩
    · rintro ⟨x, hx | hx, hp⟩
      · exact Or.inl (hx ▸ hp)
      · exact Or.inr ⟨x, hx, hp⟩

theorem mem_rangeFrom (i s n : Nat) : i ∈ rangeFrom s n ↔ s ≤ i ∧ i < s + n := by
  induction n generalizing s with
  | zero => simp [rangeFrom]
  | succ n ih => simp [rangeFrom, List.mem_cons, ih]; omega

theorem rangeFrom_drop (m a n : Nat) :
    (rangeFrom a n).drop m = rangeFrom (a + m) (n - m) := by
  induction m generalizing a n with
  | zero => simp
  | succ m ih =>
    cases n with
    | zero => simp [rangeFrom]
    | succ n =>
      show (rangeFrom (a + 1) n).drop m = _
      rw [ih]
      have h1 : a + 1 + m = a + (m + 1) := by omega
      have h2 : n - m = n + 1 - (m + 1) := by omega
      rw [h1, h2]

theorem listMemB_iff (x : String) (l : List String) :
    listMemB x l = true ↔ x ∈ l := by
  induction l with
  | nil => simp [listMemB]
  | cons a l ih =>
    simp only [listMemB, List.any_cons, Bool.or_eq_true, beq_iff_eq, List.mem_cons]
    rw [show l.any (fun y => y == x) = listMemB x l from rfl, ih]
    constructor
    · rintro (h | h)
      · exact Or.inl h.symm
      · exact Or.inr h
    · rintro (h | h)
      · exact Or.inl h.symm
      · exact Or.inr h

theorem concatMap_nil_fun {α β : Type} (l : List α) :
    concatMap (fun _ => ([] : List β)) l = [] := by
  induction l with
  | nil => rfl
  | cons a l ih => simpa [concatMap] using ih

theorem foldl_collect {α β : Type} (g : α → List β) (l : List α) (init : List β) :
    l.foldl (fun acc a => acc ++ g a) init = init ++ concatMap g l := by
  induction l generalizing init with
  | nil => simp [concatMap]
  | cons a l ih => simp [concatMap, List.foldl_cons, ih, List.append_assoc]

theorem foldl_congr_fun {α β : Type} (f g : β → α → β) (l : List α) (init : β)
    (h : ∀ acc a, f acc a = g acc a) : l.foldl f init = l.foldl g init := by
  induction l generalizing init with
  | nil => rfl
  | cons a l ih => simp only [List.foldl_cons, h, ih]

theorem foldl_pair_fst {α : Type} (g : α → List Issue) (l : List α)
    (e : Engine) (init : List Issue) :
    (l.foldl (fun (st : Engine × List Issue) a => (st.1, st.2 ++ g a)) (e, init)).1 = e := by
  induction l generalizing init with
  | nil => rfl
  | cons a l ih => simpa using ih (init ++ g a)

theorem foldl_pair_snd {α : Type} (g : α → List Issue) (l : List α)
    (e : Engine) (init : List Issue) :
    (l.foldl (fun (st : Engine × List Issue) a => (st.1, st.2 ++ g a)) (e, init)).2 =
      init ++ concatMap g l := by
  induction l generalizing init with
  | nil => simp [concatMap]
  | cons a l ih =>
    simpa [concatMap, List.append_assoc] using ih (init ++ g a)

/-!  ## Claim theorems -/

/-- C9 counterexample: a reference with an empty `book` but a non-empty
`chapter` and `page` formats to the empty string, which does not contain the
non-empty fields — `_format_reference` short-circuits on an empty `book`,
contradicting «returns the non-empty fields among {book, chapter, page}
joined with a separator». -/
theorem format_reference_cex :
    format_reference
        { book := "", chapter := "Chapter 1", page := "P8", url := "", quote := "" } = "" ∧
    strContains
      (format_reference
        { book := "", chapter := "Chapter 1", page := "P8", url := "", quote := "" })
      "Chapter 1" = false ∧
    strContains
      (format_reference
        { book := "", chapter := "Chapter 1", page := "P8", url := "", quote := "" })
      "P8" = false := by
  refine ⟨rfl, ?_, ?_⟩ <;> decide

/-- C9 (amended): the formatter returns the empty string whenever `book` is
empty (even if chapter/page are not); otherwise it joins `book` and the
non-empty fields among {chapter, page}, in that order, with `" - "`. -/
theorem format_reference_amended (ref : RuleReference) :
    format_reference ref = formatReferenceSpec ref := by
  unfold format_reference formatReferenceSpec
  by_cases hb : ref.book = "" <;>
    by_cases hc : ref.chapter = "" <;>
      by_cases hp : ref.page = "" <;>
        simp [hb, hc, hp, joinWith]

/-- C7: for every issue built by `create_issue`, the code snippet is exactly
the spec's window — source lines with 0-based indices `max(0, line-3)` to
`min(lineCount, line+2)` exclusive, the triggering line prefixed `>>> `,
other lines blank-prefixed, all numbered 1-based, padded to a fixed width
and joined by newlines. -/
theorem create_issue_snippet (rule : RuleMeta) (file_info : FileInfo) (node : Node)
    (message suggestion : String) (custom_severity : Option Severity) :
    (create_issue rule file_info node message suggestion custom_severity).code_snippet =
      snippetSpec file_info.lines (node.startRow + 1) := by
  show build_code_snippet file_info.lines (node.startRow + 1) = _
  unfold build_code_snippet snippetSpec
  rw [rangeFrom_drop, Nat.zero_add]
  show joinWith "\n"
      (List.map
        (fun i =>
          (if i == node.startRow + 1 - 1 then ">>> " else "    ") ++ padNum (i + 1) 4 ++ ": " ++
            file_info.lines.getD i "")
        (rangeFrom (max 0 (node.startRow + 1 - 3))
          (min file_info.lines.length (node.startRow + 1 + 2) - max 0 (node.startRow + 1 - 3)))) = _
  congr 1
  congr 1
  funext i
  have hcond : (i == node.startRow + 1 - 1) = (i + 1 == node.startRow + 1) := by
    rw [Nat.add_sub_cancel]
    by_cases h : i = node.startRow
    · subst h; simp
    · rw [beq_eq_false_iff_ne.mpr h,
        beq_eq_false_iff_ne.mpr (by omega : i + 1 ≠ node.startRow + 1)]
  rw [hcond]

/-- C3 counterexample: on `if ((x = 5) != 0) { }` — the assignment wrapped in
an extra parenthesis pair — the rule still produces one issue, not zero: the
assignment's grandparent is the `!=` binary expression, so
`_is_intentional_assignment` is false. -/
theorem assignment_in_condition_cex :
    (AssignmentInConditionRule.check file3c).length = 1 ∧
    is_intentional_assignment root3c assign3c = false := by
  refine ⟨?_, ?_⟩ <;> decide

/-- C3 (amended): `if (x = 5)` yields exactly one issue referencing the
assignment node, `if (x == 5)` yields zero, and the escape hatch only fires
when the assignment's parent *and grandparent* are parenthesized
expressions: `if ((x = 5) != 0)` still yields one issue (referencing the
assignment node), while `if ((x = 5))` yields zero. -/
theorem assignment_in_condition_scenarios :
    (AssignmentInConditionRule.check file3a).map (fun i => (i.line_number, i.column))
        = [(assign3a.startRow + 1, assign3a.startCol)] ∧
    (AssignmentInConditionRule.check file3a).map Issue.rule_id = ["L001"] ∧
    AssignmentInConditionRule.check file3b = [] ∧
    (AssignmentInConditionRule.check file3c).map (fun i => (i.line_number, i.column))
        = [(assign3c.startRow + 1, assign3c.startCol)] ∧
    AssignmentInConditionRule.check file3d = [] := by
  refine ⟨?_, ?_, ?_, ?_, ?_⟩ <;> decide

/-- C4 counterexample: in `int f() { int r = a / b; if (b != 0) { } }` the
division by the variable `b` has no *prior* guarding `if` (the guard comes
after it), so the claim demands one Warning issue — yet the rule reports
nothing, because `_has_zero_check` searches the whole enclosing function
regardless of position. -/
theorem division_by_zero_cex :
    DivisionByZeroRule.check file4d = [] ∧
    (find_nodes_by_type root4d "binary_expression").any (fun n => n.sameId div4d) = true ∧
    get_node_text (div4d.children.getD 1 div4d) content4d = "/" ∧
    get_node_text (div4d.children.getD 2 div4d) content4d = "b" ∧
    (find_containing_function root4d div4d).isSome = true ∧
    priorGuardExists root4d div4d "b" content4d = false := by
  refine ⟨?_, ?_, ?_, ?_, ?_, ?_⟩ <;> decide

/-- C4 (amended): `a / 0` yields one Critical issue; `a / b` in a function
with no guarding `if` *anywhere* yields one Warning issue; and a guarding
`if` containing `b != 0` anywhere in the enclosing function — before or
after the division — suppresses the finding. -/
theorem division_by_zero_scenarios :
    (DivisionByZeroRule.check file4a).map (fun i => (i.line_number, i.severity))
        = [(2, Severity.CRITICAL)] ∧
    (DivisionByZeroRule.check file4b).map (fun i => (i.line_number, i.severity))
        = [(2, Severity.WARNING)] ∧
    DivisionByZeroRule.check file4c = [] ∧
    DivisionByZeroRule.check file4d = [] := by
  refine ⟨?_, ?_, ?_, ?_⟩ <;> decide

theorem has_break_or_return_iff (root case_node : Node) (all_cases : List Node)
    (case_index : Nat) :
    has_break_or_return root case_node all_cases case_index = true ↔
      specBreakInRange root case_node all_cases case_index := by
  unfold has_break_or_return specBreakInRange
  cases hp : parentOf root case_node with
  | none => simp
  | some p =>
    simp only [Option.some.injEq]
    rw [any_iff_exists]
    constructor
    · rintro ⟨b, hmem, hb⟩
      refine ⟨p, rfl, b, List.mem_append.1 hmem, ?_, ?_⟩
      · rw [Bool.and_eq_true, decide_eq_true_eq] at hb
        exact hb.1
      · rw [Bool.and_eq_true] at hb
        intro nc hnc
        rw [hnc] at hb
        simpa using hb.2
    · rintro ⟨p', hp', b, hmem, hlt, hnext⟩
      obtain rfl : p' = p := hp'.symm
      refine ⟨b, List.mem_append.2 hmem, ?_⟩
      rw [Bool.and_eq_true, decide_eq_true_eq]
      refine ⟨hlt, ?_⟩
      cases hn : (all_cases.get? (case_index + 1)).map Node.startRow with
      | none => rfl
      | some l =>
        cases hg : all_cases.get? (case_index + 1) with
        | none => rw [hg] at hn; cases hn
        | some nc =>
          rw [hg] at hn
          simp only [Option.map_some'] at hn
          obtain rfl : nc.startRow = l := by injection hn
          simpa using hnext nc hg

theorem has_fallthrough_comment_iff (content : String) (case_node : Node) :
    has_fallthrough_comment content case_node = true ↔
      specFallthroughComment content case_node := by
  unfold has_fallthrough_comment specFallthroughComment
  rw [any_iff_exists]
  constructor
  · rintro ⟨i, hmem, hi⟩
    rw [mem_rangeFrom] at hmem
    refine ⟨i, hmem.1, by omega, ?_⟩
    simpa [Bool.or_eq_true, or_assoc] using hi
  · rintro ⟨i, h1, h2, h3⟩
    refine ⟨i, ?_, ?_⟩
    · rw [mem_rangeFrom]; omega
    · simpa [Bool.or_eq_true, or_assoc] using h3

theorem caseFlagged_iff (root : Node) (content : String) (all_cases : List Node)
    (case_index : Nat) (case_node : Node) :
    SwitchFallthroughRule.caseFlagged root content all_cases case_index case_node = true ↔
      ¬ specBreakInRange root case_node all_cases case_index ∧
      ¬ specFallthroughComment content case_node := by
  unfold SwitchFallthroughRule.caseFlagged
  rw [Bool.and_eq_true]
  constructor
  · rintro ⟨h1, h2⟩
    constructor
    · intro hs
      rw [← has_break_or_return_iff root case_node all_cases case_index] at hs
      rw [hs] at h1
      exact absurd h1 (by decide)
    · intro hs
      rw [← has_fallthrough_comment_iff content case_node] at hs
      rw [hs] at h2
      exact absurd h2 (by decide)
  · rintro ⟨hs1, hs2⟩
    constructor
    · cases hb : has_break_or_return root case_node all_cases case_index with
      | true => exact absurd ((has_break_or_return_iff _ _ _ _).1 hb) hs1
      | false => rfl
    · cases hf : has_fallthrough_comment content case_node with
      | true => exact absurd ((has_fallthrough_comment_iff _ _).1 hf) hs2
      | false => rfl

/-- C6: a case is flagged exactly when no break/return of its parent subtree
starts strictly inside its line range (up to the next case, unbounded for
the last) and no fallthrough-intent comment appears within the 5-line window
at the case label; in particular the two-case switch
`case 1: foo();  case 2: bar(); break;` yields exactly one issue, for
`case 1`, and a `/* fall through */` comment suppresses it. -/
theorem switch_fallthrough_spec :
    (∀ (root : Node) (content : String) (all_cases : List Node)
        (case_index : Nat) (case_node : Node),
      SwitchFallthroughRule.caseFlagged root content all_cases case_index case_node = true ↔
        ¬ specBreakInRange root case_node all_cases case_index ∧
        ¬ specFallthroughComment content case_node) ∧
    (SwitchFallthroughRule.check file6a).map (fun i => (i.line_number, i.column))
        = [(case6a1.startRow + 1, case6a1.startCol)] ∧
    (SwitchFallthroughRule.check file6a).map Issue.rule_id = ["L002"] ∧
    SwitchFallthroughRule.check file6b = [] := by
  refine ⟨caseFlagged_iff, ?_, ?_, ?_⟩ <;> decide


theorem inner_step_eq (file_info : FileInfo) (acc : List Issue) (rule : Rule) :
    (if rule.is_applicable file_info then
      match rule.check file_info with
      | Except.ok issues => acc ++ issues
      | Except.error _ => acc
     else acc) = acc ++ rule_file_issues rule file_info := by
  unfold rule_file_issues
  by_cases h : rule.is_applicable file_info
  · simp only [h, if_true]
    cases rule.check file_info with
    | ok issues => rfl
    | error e => simp
  · simp [h]

theorem file_issues_eq (enabled_rules : List Rule) (file_info : FileInfo) :
    check_files_file_issues enabled_rules file_info =
      concatMap (fun rule => rule_file_issues rule file_info) enabled_rules := by
  unfold check_files_file_issues
  rw [foldl_congr_fun _ (fun acc rule => acc ++ rule_file_issues rule file_info) _ _
    (fun acc rule => inner_step_eq file_info acc rule)]
  rw [foldl_collect]
  rfl

/-- C8: the batch run returns exactly the concatenation, in (file order,
rule order), of the issues of every successful (enabled, applicable) rule
invocation; a rule whose `check` raises on a file contributes zero issues
for that file and every other (rule, file) pair is still evaluated. -/
theorem check_files_collects (eng : Engine) (parsed_files : List FileInfo) :
    (RuleEngine.check_files eng parsed_files).2 = collectedIssues eng.rules parsed_files := by
  show (if (RuleEngine.get_enabled_rules eng).isEmpty then (eng, ([] : List Issue))
        else parsed_files.foldl
          (fun (st : Engine × List Issue) file_info =>
            (st.1, st.2 ++ check_files_file_issues (RuleEngine.get_enabled_rules eng) file_info))
          (eng, [])).2 = _
  by_cases he : (RuleEngine.get_enabled_rules eng).isEmpty
  · rw [if_pos he]
    have hnil : eng.rules.filter (fun r => r.enabled) = [] := by
      cases hfe : eng.rules.filter (fun r => r.enabled) with
      | nil => rfl
      | cons a l =>
        have : RuleEngine.get_enabled_rules eng = a :: l := hfe
        rw [this] at he
        simp [List.isEmpty] at he
    unfold collectedIssues
    simp only [hnil, concatMap]
    rw [concatMap_nil_fun]
  · rw [if_neg he]
    rw [foldl_pair_snd (check_files_file_issues (RuleEngine.get_enabled_rules eng))
      parsed_files eng []]
    rw [List.nil_append]
    unfold collectedIssues
    exact congrArg (fun g => concatMap g parsed_files)
      (funext (fun file_info => file_issues_eq (RuleEngine.get_enabled_rules eng) file_info))

/-- C10: a batch run leaves the engine state — the rule list and with it
every rule's enabled flag, severity and config — exactly as it was: the
engine never mutates rule configuration while checking. -/
theorem check_files_frame (eng : Engine) (parsed_files : List FileInfo) :
    (RuleEngine.check_files eng parsed_files).1 = eng ∧
    (RuleEngine.check_files eng parsed_files).1.rules = eng.rules := by
  have h : (RuleEngine.check_files eng parsed_files).1 = eng := by
    show (if (RuleEngine.get_enabled_rules eng).isEmpty then (eng, ([] : List Issue))
          else parsed_files.foldl
            (fun (st : Engine × List Issue) file_info =>
              (st.1, st.2 ++ check_files_file_issues (RuleEngine.get_enabled_rules eng) file_info))
            (eng, [])).1 = eng
    by_cases he : (RuleEngine.get_enabled_rules eng).isEmpty
    · rw [if_pos he]
    · rw [if_neg he]
      exact foldl_pair_fst (check_files_file_issues (RuleEngine.get_enabled_rules eng))
        parsed_files eng []
  exact ⟨h, congrArg Engine.rules h⟩

theorem apply_template_go_spec (ers : List String)
    (rss : List (String × TemplateSetting)) (rules : List Rule)
    (hok : (apply_template_go ers rss rules).2 = true) :
    List.Forall₂ (fun r r' =>
      (r'.enabled = true ↔ r.rule_id ∈ ers) ∧
      (dictGet rss r.rule_id = none → r'.severity = r.severity))
      rules (apply_template_go ers rss rules).1 := by
  induction rules with
  | nil => exact List.Forall₂.nil
  | cons r rs ih =>
    unfold apply_template_go at hok ⊢
    unfold apply_template_rule at hok ⊢
    cases hd : dictGet rss r.rule_id with
    | none =>
      simp only [hd] at hok ⊢
      exact List.Forall₂.cons ⟨listMemB_iff r.rule_id ers, fun _ => rfl⟩ (ih hok)
    | some settings =>
      cases hs : settings.severity with
      | none =>
        simp only [hd, hs] at hok ⊢
        exact List.Forall₂.cons
          ⟨listMemB_iff r.rule_id ers, fun hcon => absurd hd (by rw [hcon]; intro h; cases h)⟩
          (ih hok)
      | some v =>
        cases hv : Severity.ofValue v with
        | none =>
          simp only [hd, hs, hv] at hok
          exact Bool.noConfusion hok
        | some sev =>
          simp only [hd, hs, hv] at hok ⊢
          exact List.Forall₂.cons
            ⟨listMemB_iff r.rule_id ers, fun hcon => absurd hd (by rw [hcon]; intro h; cases h)⟩
            (ih hok)

/-- C1: after a successfully completed `apply_template` on a template
present in the template map, every registered rule's enabled flag equals
membership of its id in the template's `enabled_rules`, and every rule with
no entry in the template's `rule_settings` keeps its previous severity. -/
theorem apply_template_spec (eng : Engine) (template_name : String) (template : Template)
    (hfound : dictGet eng.rule_templates template_name = some template)
    (hok : (RuleEngine.apply_template eng template_name).2 = true) :
    List.Forall₂ (fun r r' =>
      (r'.enabled = true ↔ r.rule_id ∈ template.enabled_rules) ∧
      (dictGet template.rule_settings r.rule_id = none → r'.severity = r.severity))
      eng.rules (RuleEngine.apply_template eng template_name).1.rules := by
  unfold RuleEngine.apply_template at hok ⊢
  rw [hfound] at hok ⊢
  exact apply_template_go_spec _ _ _ hok

/-- A disabled rule used in the witness engines. -/
def ruleW : Rule :=
  { rule_id := "C001", name_cn := "数组越界检查", enabled := false,
    severity := Severity.CRITICAL, category := "内存安全",
    config := JsonValue.obj [],
    is_applicable := fun _ => true, check := fun _ => Except.ok [] }

/-- An enabled rule used in the witness engines. -/
def ruleW2 : Rule :=
  { rule_id := "L001", name_cn := "条件中赋值检查", enabled := true,
    severity := Severity.WARNING, category := "逻辑错误",
    config := JsonValue.obj [("max_len", JsonValue.num 80)],
    is_applicable := fun _ => true, check := fun _ => Except.ok [] }

/-- A beginner-style template enabling only `C001`, with no settings. -/
def templateW : Template :=
  { name := "新手友好版", description := "包含最基础和最重要的代码检查规则",
    enabled_rules := ["C001"], rule_settings := [] }

/-- A small engine holding both witness rules and the witness template. -/
def engW : Engine :=
  { rules := [ruleW, ruleW2], rule_templates := [("beginner", templateW)] }

/-- C1 witness: applying the `beginner` template of `engW` enables exactly
`C001` and keeps both severities. -/
theorem apply_template_spec_witness :
    List.Forall₂ (fun r r' =>
      (r'.enabled = true ↔ r.rule_id ∈ templateW.enabled_rules) ∧
      (dictGet templateW.rule_settings r.rule_id = none → r'.severity = r.severity))
      engW.rules (RuleEngine.apply_template engW "beginner").1.rules :=
  apply_template_spec engW "beginner" templateW rfl rfl

theorem ofValue_value (s : Severity) : Severity.ofValue s.value = some s := by
  cases s <;> rfl

theorem dictGet_map_key {α : Type} (f : Rule → α) (rules : List Rule) (r : Rule)
    (hmem : r ∈ rules) (hnd : (rules.map (fun x => x.rule_id)).Nodup) :
    dictGet (rules.map (fun x => (x.rule_id, f x))) r.rule_id = some (f r) := by
  induction rules with
  | nil => cases hmem
  | cons a rs ih =>
    rw [List.map_cons, List.nodup_cons] at hnd
    rcases List.mem_cons.1 hmem with rfl | hr
    · simp [dictGet]
    · have hne : (a.rule_id == r.rule_id) = false := by
        rw [beq_eq_false_iff_ne]
        intro heq
        exact hnd.1 (heq ▸ List.mem_map_of_mem (fun x => x.rule_id) hr)
      rw [List.map_cons]
      unfold dictGet
      rw [hne]
      exact ih hr hnd.2

theorem listMemB_filter_enabled (rules : List Rule) (r : Rule)
    (hmem : r ∈ rules) (hnd : (rules.map (fun x => x.rule_id)).Nodup) :
    listMemB r.rule_id ((rules.filter (fun x => x.enabled)).map (fun x => x.rule_id))
      = r.enabled := by
  induction rules with
  | nil => cases hmem
  | cons a rs ih =>
    rw [List.map_cons, List.nodup_cons] at hnd
    rcases List.mem_cons.1 hmem with rfl | hr
    · cases ha : r.enabled with
      | true =>
        rw [List.filter_cons_of_pos (by rw [ha]), List.map_cons]
        simp [listMemB]
      | false =>
        rw [List.filter_cons_of_neg (by rw [ha]; exact Bool.noConfusion)]
        cases hmb : listMemB r.rule_id ((rs.filter (fun x => x.enabled)).map
            (fun x => x.rule_id)) with
        | false => rfl
        | true =>
          exfalso
          have hmem2 := (listMemB_iff _ _).1 hmb
          rcases List.mem_map.1 hmem2 with ⟨x, hxf, hxid⟩
          exact hnd.1 (hxid ▸ List.mem_map_of_mem (fun y => y.rule_id)
            (List.mem_of_mem_filter hxf))
    · have hne : r.rule_id ≠ a.rule_id := by
        intro heq
        exact hnd.1 (heq ▸ List.mem_map_of_mem (fun x => x.rule_id) hr)
      by_cases ha : a.enabled
      · rw [List.filter_cons_of_pos (by rw [ha]), List.map_cons]
        unfold listMemB
        rw [List.any_cons]
        rw [show (a.rule_id == r.rule_id) = false from beq_eq_false_iff_ne.mpr
          (fun h => hne h.symm)]
        rw [Bool.false_or]
        exact ih hr hnd.2
      · rw [List.filter_cons_of_neg (by simpa using ha)]
        exact ih hr hnd.2

theorem import_export_rule (rules : List Rule) (r : Rule)
    (hmem : r ∈ rules) (hnd : (rules.map (fun x => x.rule_id)).Nodup) :
    import_config_rule (RuleEngine.export_config rules) r = r := by
  unfold import_config_rule RuleEngine.export_config
  dsimp only
  rw [dictGet_map_key (fun y =>
      ({ enabled := y.enabled, severity := some y.severity.value,
         category := y.category, config := some y.config } : RuleSetting)) rules r hmem hnd]
  rw [listMemB_filter_enabled rules r hmem hnd]
  dsimp only
  rw [ofValue_value]

theorem map_id_of_mem {α : Type} (l : List α) (g : α → α) (h : ∀ a ∈ l, g a = a) :
    l.map g = l := by
  induction l with
  | nil => rfl
  | cons a t ih =>
    rw [List.map_cons, h a (List.mem_cons_self a t), ih (fun b hb => h b (List.mem_cons_of_mem a hb))]

/-- C2: for any configuration of the registered rules (any enabled flags,
severities and config mappings; rule ids pairwise distinct, as the registry
enforces), exporting and then importing the configuration restores every
rule exactly — in particular each rule's (enabled, severity, config)
triple. -/
theorem import_export_roundtrip (rules : List Rule)
    (hnd : (rules.map (fun x => x.rule_id)).Nodup) :
    RuleEngine.import_config rules (RuleEngine.export_config rules) = rules := by
  unfold RuleEngine.import_config
  exact map_id_of_mem rules _ (fun r hr => import_export_rule rules r hr hnd)

/-- C2 witness: the round trip restores the two-rule witness configuration
(one disabled Critical rule, one enabled Warning rule with a config). -/
theorem import_export_roundtrip_witness :
    RuleEngine.import_config [ruleW, ruleW2]
      (RuleEngine.export_config [ruleW, ruleW2]) = [ruleW, ruleW2] :=
  import_export_roundtrip [ruleW, ruleW2] (by decide)

theorem arrayBounds_node_count (root : Node) (content : String)
    (file_info : FileInfo) (n : Node) :
    (ArrayBoundsRule.checkNode root content file_info n).length =
      if subscriptFlagged root content n then 1 else 0 := by
  unfold ArrayBoundsRule.checkNode subscriptFlagged
  cases hc : n.children with
  | nil => rfl
  | cons a t =>
    cases t with
    | nil => rfl
    | cons b t2 =>
      cases t2 with
      | nil => rfl
      | cons c t3 =>
        cases hp : parseInt? (trimChars (get_node_text c content)) with
        | none => simp only [hp]; rfl
        | some index_value =>
          cases hs : find_array_size root (get_node_text a content) content with
          | none => simp only [hp, hs]; rfl
          | some array_size =>
            simp only [hp, hs]
            by_cases h1 : array_size ≤ index_value
            · rw [if_pos (show index_value ≥ array_size from h1)]
              have hb : (decide (index_value < 0) || decide (array_size ≤ index_value))
                  = true := by simp [h1]
              rw [hb]
              rfl
            · rw [if_neg (show ¬ index_value ≥ array_size from h1)]
              by_cases h2 : index_value < 0
              · rw [if_pos h2]
                have hb : (decide (index_value < 0) || decide (array_size ≤ index_value))
                    = true := by simp [h2]
                rw [hb]
                rfl
              · rw [if_neg h2]
                have hb : (decide (index_value < 0) || decide (array_size ≤ index_value))
                    = false := by simp [h1, h2]
                rw [hb]
                rfl

/-- C5: each subscript expression contributes exactly one issue when its
index is a literal integer, its array's declared size is findable in the
same tree, and the index is negative or at least that size; it contributes
zero issues otherwise (non-literal index, or unresolvable size); and the
rule's result is exactly the concatenation of these per-subscript
contributions. -/
theorem array_bounds_exact (file_info : FileInfo) :
    (∀ n : Node,
      (ArrayBoundsRule.checkNode file_info.root_node file_info.content file_info n).length =
        if subscriptFlagged file_info.root_node file_info.content n then 1 else 0) ∧
    ArrayBoundsRule.check file_info =
      concatMap (ArrayBoundsRule.checkNode file_info.root_node file_info.content file_info)
        (find_nodes_by_type file_info.root_node "subscript_expression") :=
  ⟨fun n => arrayBounds_node_count file_info.root_node file_info.content file_info n, rfl⟩
